import Mathlib

/-!
Shallow embedding of the banking-app ledger core.

The embedded code:
* `transferMoney` (src/src/services/transaction.ts, lines 13-86): the direct
  transfer path used by the form and by the QR scanner.
* `processNFCPayment` (src/src/services/transaction.ts, lines 172-233): the
  NFC payment path, a separate implementation of the same flow.
* `processScannedQR` (src/unnamed/part_004, lines 131-170): the QR decoder,
  which calls `transferMoney` after a type check.
* `getTransactionStatistics` (src/src/services/webauthn.ts, lines 164-229):
  the statistics aggregator.

The Firestore document store is modelled as association lists keyed by
document id.  Each store write may fail (Firestore rejection / network
error); a `FailSpec` records, per write site, whether that write throws.
Reads are assumed to succeed: no claim depends on a failing read.
`Timestamp.now()` / `new Date()` are modelled by an explicit `now`
parameter.
-/

inductive TStatus where
  | pending
  | completed
  | failed
deriving DecidableEq

inductive TxType where
  | transfer
  | nfc
  | deposit
  | withdrawal
deriving DecidableEq

/-- A document of the `transactions` collection, fields as written by
`addDoc` in `transferMoney` / `processNFCPayment`. -/
structure Txn where
  id : Nat
  senderId : String
  receiverId : String
  amount : Int
  description : String
  transactionType : TxType
  timestamp : Nat
  status : TStatus
deriving DecidableEq

/-- The Firestore state seen by the core: the `users` collection (document
id, `accountBalance` field) and the `transactions` collection.  `nextId`
models the fresh document id `addDoc` assigns. -/
structure Store where
  users : List (String × Int)
  transactions : List Txn
  nextId : Nat
deriving DecidableEq

/-- The `getDoc` read of a user document: first entry with the given id. -/
def lookupBal : List (String × Int) → String → Option Int
  | [], _ => none
  | (k, v) :: rest, uid => if k = uid then some v else lookupBal rest uid

/-- The `updateDoc(userRef, \x7baccountBalance: v\x7d)` write: a blind
overwrite of the balance field of the first document with the given id. -/
def setBalance : List (String × Int) → String → Int → List (String × Int)
  | [], _, _ => []
  | (k, v) :: rest, uid, b =>
      if k = uid then (k, b) :: rest else (k, v) :: setBalance rest uid b

/-- The `updateDoc(transactionRef, \x7bstatus\x7d)` write. -/
def setTxnStatus : List Txn → Nat → TStatus → List Txn
  | [], _, _ => []
  | t :: rest, tid, st =>
      if t.id = tid then { t with status := st } :: rest
      else t :: setTxnStatus rest tid st

/-- Read a transaction document by id. -/
def findTxn : List Txn → Nat → Option Txn
  | [], _ => none
  | t :: rest, tid => if t.id = tid then some t else findTxn rest tid

/-- The argument record of `transferMoney` (interface `TransferOptions`). -/
structure TransferOptions where
  senderId : String
  receiverId : String
  amount : Int
  description : String
  transactionType : TxType
deriving DecidableEq

/-- The result shape `\x7bsuccess, transactionId?, error?\x7d` returned by
`transferMoney`; the NFC path is mapped onto the same shape, `success`
standing for `onSuccess(id)` and `failure` for `onError(message)`. -/
inductive TResult where
  | success (transactionId : Nat)
  | failure (error : String)
deriving DecidableEq

/-- Per-write-site failure injection for one run: whether the pending
insert, the debit, the credit, the completed-status update, or the
failed-status update throws. -/
structure FailSpec where
  createFails : Bool
  debitFails : Bool
  creditFails : Bool
  completeFails : Bool
  markFailedFails : Bool
deriving DecidableEq

/-- The run in which every store write succeeds. -/
def noFail : FailSpec :=
  { createFails := false, debitFails := false, creditFails := false,
    completeFails := false, markFailedFails := false }

/-- The inner catch of `transferMoney`: mark the transaction failed and
report a processing failure; if that very update throws, the outer catch
returns the generic failure and the transaction keeps its status. -/
def markFailedOr (s : Store) (tid : Nat) (f : FailSpec) : Store × TResult :=
  if f.markFailedFails then (s, .failure "Transaction failed")
  else ({ s with transactions := setTxnStatus s.transactions tid .failed },
        .failure "Transaction processing failed")

/-- `transferMoney` from src/src/services/transaction.ts: validate sender
existence, funds, receiver existence; insert a pending transaction; debit
the sender; credit the receiver from the balance read before any update;
mark the transaction completed.  A mid-flight write failure goes through
`markFailedOr`.  The new transaction is put at the head of the list (a
fresh document id). -/
def transferMoney (s : Store) (req : TransferOptions) (now : Nat)
    (f : FailSpec) : Store × TResult :=
  match lookupBal s.users req.senderId with
  | none => (s, .failure "Sender account not found")
  | some senderBal =>
    if senderBal < req.amount then (s, .failure "Insufficient funds")
    else
      match lookupBal s.users req.receiverId with
      | none => (s, .failure "Receiver account not found")
      | some receiverBal =>
        if f.createFails then (s, .failure "Transaction failed")
        else
          let tid := s.nextId
          let s1 : Store :=
            { s with
              transactions :=
                ⟨tid, req.senderId, req.receiverId, req.amount,
                 req.description, req.transactionType, now, .pending⟩ ::
                  s.transactions,
              nextId := s.nextId + 1 }
          if f.debitFails then markFailedOr s1 tid f
          else
            let s2 : Store :=
              { s1 with users := setBalance s1.users req.senderId (senderBal - req.amount) }
            if f.creditFails then markFailedOr s2 tid f
            else
              let s3 : Store :=
                { s2 with users := setBalance s2.users req.receiverId (receiverBal + req.amount) }
              if f.completeFails then markFailedOr s3 tid f
              else
                ({ s3 with transactions := setTxnStatus s3.transactions tid .completed },
                 .success tid)

/-- The decoded NFC payload (type `NFCPaymentData`). -/
structure NFCPaymentData where
  receiverId : String
  amount : Int
  description : String
deriving DecidableEq

/-- `processNFCPayment` from src/src/services/transaction.ts: the same
validation and update sequence as `transferMoney`, reimplemented inline,
with `transactionType = nfc` and a falsy description replaced by
"NFC Payment".  There is no inner catch: a write failure after the pending
insert goes straight to `onError` and the transaction keeps the status it
had.  The message of a thrown store error is abstracted as "store error". -/
def processNFCPayment (s : Store) (senderId : String) (p : NFCPaymentData)
    (now : Nat) (f : FailSpec) : Store × TResult :=
  match lookupBal s.users senderId with
  | none => (s, .failure "Sender account not found")
  | some senderBal =>
    if senderBal < p.amount then (s, .failure "Insufficient funds")
    else
      match lookupBal s.users p.receiverId with
      | none => (s, .failure "Receiver account not found")
      | some receiverBal =>
        if f.createFails then (s, .failure "store error")
        else
          let tid := s.nextId
          let descr := if p.description = "" then "NFC Payment" else p.description
          let s1 : Store :=
            { s with
              transactions :=
                ⟨tid, senderId, p.receiverId, p.amount, descr, .nfc, now,
                 .pending⟩ :: s.transactions,
              nextId := s.nextId + 1 }
          if f.debitFails then (s1, .failure "store error")
          else
            let s2 : Store :=
              { s1 with users := setBalance s1.users senderId (senderBal - p.amount) }
            if f.creditFails then (s2, .failure "store error")
            else
              let s3 : Store :=
                { s2 with users := setBalance s2.users p.receiverId (receiverBal + p.amount) }
              if f.completeFails then (s3, .failure "store error")
              else
                ({ s3 with transactions := setTxnStatus s3.transactions tid .completed },
                 .success tid)

/-- System-wide sum of account balances. -/
def sumBal (s : Store) : Int :=
  (s.users.map Prod.snd).sum

/-- Every stored balance is nonnegative. -/
def allNonneg (users : List (String × Int)) : Prop :=
  ∀ p ∈ users, 0 ≤ p.2

instance : DecidablePred allNonneg := fun users =>
  List.decidableBAll _ users

/-- A sequence of transfer attempts run through `transferMoney`. -/
def runTransfers (s : Store) :
    List (TransferOptions × Nat × FailSpec) → Store × List TResult
  | [] => (s, [])
  | (req, now, f) :: rest =>
      let step := transferMoney s req now f
      let tail := runTransfers step.1 rest
      (tail.1, step.2 :: tail.2)

def TResult.isSuccess : TResult → Bool
  | .success _ => true
  | .failure _ => false

/-! QR decoder (`processScannedQR`, src/unnamed/part_004).  The scanned
text is run through `JSON.parse`; a parse failure is modelled as `none`.
A parsed payload is an object whose relevant fields may be absent or hold
a value of any primitive JSON type, plus arbitrary further fields. -/

inductive JPrim where
  | str (s : String)
  | num (n : Int)
  | jbool (b : Bool)
  | jnull
deriving DecidableEq

/-- The parsed QR object as the decoder sees it: each field the code may
touch, `none` when absent, plus the remaining (unknown) fields. -/
structure ParsedQR where
  type : Option JPrim
  receiverId : Option JPrim
  amount : Option JPrim
  description : Option JPrim
  extra : List (String × JPrim)
deriving DecidableEq

/-- The `transferMoney` invocation the QR handler issues, with the payload
fields passed through exactly as decoded. -/
structure EngineCall where
  senderId : String
  receiverId : Option JPrim
  amount : Option JPrim
  description : Option JPrim
  transactionType : TxType
deriving DecidableEq

/-- `processScannedQR`: reject when `JSON.parse` throws, when
`paymentData.type !== "payment"`, or when no user is logged in; otherwise
call `transferMoney` with the decoded fields and `transactionType =
transfer`.  Returns the engine call made, `none` when none is made. -/
def processScannedQR (currentUser : Option String)
    (parsed : Option ParsedQR) : Option EngineCall :=
  match parsed with
  | none => none
  | some pd =>
    if pd.type ≠ some (JPrim.str "payment") then none
    else
      match currentUser with
      | none => none
      | some uid =>
          some ⟨uid, pd.receiverId, pd.amount, pd.description, .transfer⟩

/-! Statistics aggregator (`getTransactionStatistics`,
src/src/services/webauthn.ts). -/

/-- The result record, initialised to all zeroes and an empty category
map.  Categories are an insertion-ordered association list, like the
JavaScript object the code builds. -/
structure TransactionStatistics where
  totalIncome : Int
  totalExpenses : Int
  totalTransactions : Nat
  categories : List (TxType × Int)
deriving DecidableEq

def zeroStats : TransactionStatistics :=
  { totalIncome := 0, totalExpenses := 0, totalTransactions := 0,
    categories := [] }

/-- The category update `if (!categories[t]) categories[t] = 0;
categories[t] += amount`: bump an existing key or append a new one. -/
def bumpCategory : List (TxType × Int) → TxType → Int → List (TxType × Int)
  | [], ty, a => [(ty, a)]
  | (t0, v0) :: rest, ty, a =>
      if t0 = ty then (t0, v0 + a) :: rest
      else (t0, v0) :: bumpCategory rest ty a

/-- The filter of the `receivedQuery`: receiver is the user, status
completed, timestamp within the inclusive range. -/
def receivedIn (txns : List Txn) (userId : String) (startD endD : Nat) :
    List Txn :=
  txns.filter fun t =>
    decide (t.receiverId = userId ∧ t.status = TStatus.completed ∧
      startD ≤ t.timestamp ∧ t.timestamp ≤ endD)

/-- The filter of the `sentQuery`: sender is the user, status completed,
timestamp within the inclusive range. -/
def sentIn (txns : List Txn) (userId : String) (startD endD : Nat) :
    List Txn :=
  txns.filter fun t =>
    decide (t.senderId = userId ∧ t.status = TStatus.completed ∧
      startD ≤ t.timestamp ∧ t.timestamp ≤ endD)

/-- The `receivedSnapshot.docs.forEach` loop: add each amount to
`totalIncome`, count it, and bump its category. -/
def processReceived (docs : List Txn) (acc : TransactionStatistics) :
    TransactionStatistics :=
  match docs with
  | [] => acc
  | t :: rest =>
      processReceived rest
        { acc with
          totalIncome := acc.totalIncome + t.amount,
          totalTransactions := acc.totalTransactions + 1,
          categories := bumpCategory acc.categories t.transactionType t.amount }

/-- The `sentSnapshot.docs.forEach` loop: add each amount to
`totalExpenses`, count it, and bump its category. -/
def processSent (docs : List Txn) (acc : TransactionStatistics) :
    TransactionStatistics :=
  match docs with
  | [] => acc
  | t :: rest =>
      processSent rest
        { acc with
          totalExpenses := acc.totalExpenses + t.amount,
          totalTransactions := acc.totalTransactions + 1,
          categories := bumpCategory acc.categories t.transactionType t.amount }

/-- `getTransactionStatistics`: run both queries and fold both loops over
the zero-initialised result.  `queryFails` models the catch around the
awaited queries: when they throw, the function returns the result as it
stands, which is the zero-initialised record.  The descending
timestamp order of the queries is dropped: only sums and counts are
derived from the document lists. -/
def getTransactionStatistics (txns : List Txn) (userId : String)
    (startD endD : Nat) (queryFails : Bool) : TransactionStatistics :=
  if queryFails then zeroStats
  else
    processSent (sentIn txns userId startD endD)
      (processReceived (receivedIn txns userId startD endD) zeroStats)

/-- Category read-out with the JavaScript default of a missing key. -/
def lookupCat (cats : List (TxType × Int)) (ty : TxType) : Int :=
  match cats with
  | [] => 0
  | (t0, v0) :: rest => if t0 = ty then v0 else lookupCat rest ty

/-- Sum of the amounts of the transactions of one category. -/
def sumOfType (docs : List Txn) (ty : TxType) : Int :=
  ((docs.filter fun t => decide (t.transactionType = ty)).map Txn.amount).sum

/-- Sum of all amounts of a document list. -/
def sumAmounts (docs : List Txn) : Int :=
  (docs.map Txn.amount).sum

/-! Concrete stores and runs used to evaluate the definitions. -/

/-- Two accounts with balances 1000 and 500. -/
def storeAB : Store := ⟨[("A", 1000), ("B", 500)], [], 0⟩

/-- A single account with balance 100. -/
def storeSelf : Store := ⟨[("A", 100)], [], 0⟩

/-- Two accounts with balances 50 and 30. -/
def storeSmall : Store := ⟨[("A", 50), ("B", 30)], [], 0⟩

/-- A run in which the debit write throws. -/
def failDebit : FailSpec := { noFail with debitFails := true }

/-- A run in which the credit write throws. -/
def failCredit : FailSpec := { noFail with creditFails := true }

/-- Two transfer attempts with distinct parties, every write succeeding. -/
def stepsW : List (TransferOptions × Nat × FailSpec) :=
  [(⟨"A", "B", 100, "first", .transfer⟩, 0, noFail),
   (⟨"B", "A", 40, "second", .nfc⟩, 1, noFail)]

/-! Store lemmas. -/

theorem lookupBal_mem {users : List (String × Int)} {k : String} {b : Int}
    (h : lookupBal users k = some b) : (k, b) ∈ users := by
  induction users with
  | nil => simp [lookupBal] at h
  | cons p rest ih =>
    obtain ⟨k0, v0⟩ := p
    by_cases hk : k0 = k
    · subst hk
      simp [lookupBal] at h
      subst h
      exact List.mem_cons_self _ _
    · simp [lookupBal, hk] at h
      exact List.mem_cons_of_mem _ (ih h)

theorem sum_setBalance {users : List (String × Int)} {k : String} {b : Int}
    (v : Int) (h : lookupBal users k = some b) :
    ((setBalance users k v).map Prod.snd).sum =
      (users.map Prod.snd).sum - b + v := by
  induction users with
  | nil => simp [lookupBal] at h
  | cons p rest ih =>
    obtain ⟨k0, v0⟩ := p
    by_cases hk : k0 = k
    · subst hk
      simp [lookupBal] at h
      subst h
      simp [setBalance]
      ring
    · simp [lookupBal, hk] at h
      simp [setBalance, hk, ih h]
      ring

theorem lookupBal_setBalance_ne {users : List (String × Int)}
    {k k' : String} (v : Int) (h : k' ≠ k) :
    lookupBal (setBalance users k v) k' = lookupBal users k' := by
  induction users with
  | nil => simp [setBalance]
  | cons p rest ih =>
    obtain ⟨k0, v0⟩ := p
    by_cases hk : k0 = k
    · subst hk
      have : ¬ (k0 = k') := fun hc => h (hc ▸ rfl)
      simp [setBalance, lookupBal, this]
    · simp [setBalance, hk, lookupBal, ih]

theorem lookupBal_setBalance_eq {users : List (String × Int)} {k : String}
    {b : Int} (v : Int) (h : lookupBal users k = some b) :
    lookupBal (setBalance users k v) k = some v := by
  induction users with
  | nil => simp [lookupBal] at h
  | cons p rest ih =>
    obtain ⟨k0, v0⟩ := p
    by_cases hk : k0 = k
    · subst hk
      simp [setBalance, lookupBal]
    · simp [lookupBal, hk] at h
      simp [setBalance, hk, lookupBal, ih h]

theorem allNonneg_setBalance {users : List (String × Int)} {k : String}
    {v : Int} (hall : allNonneg users) (hv : 0 ≤ v) :
    allNonneg (setBalance users k v) := by
  induction users with
  | nil => intro p hp; simp [setBalance] at hp
  | cons q rest ih =>
    obtain ⟨k0, v0⟩ := q
    intro p hp
    by_cases hk : k0 = k
    · subst hk
      simp [setBalance] at hp
      rcases hp with h1 | h2
      · subst h1; exact hv
      · exact hall p (List.mem_cons_of_mem _ h2)
    · simp [setBalance, hk] at hp
      rcases hp with h1 | h2
      · subst h1; exact hall (k0, v0) (List.mem_cons_self _ _)
      · exact ih (fun q hq => hall q (List.mem_cons_of_mem _ hq)) p h2

theorem setTxnStatus_head (t : Txn) (ts : List Txn) (st : TStatus)
    {tid : Nat} (h : t.id = tid) :
    setTxnStatus (t :: ts) tid st = { t with status := st } :: ts := by
  simp [setTxnStatus, h]

theorem findTxn_head (t : Txn) (ts : List Txn) :
    findTxn (t :: ts) t.id = some t := by
  simp [findTxn]

theorem markFailedOr_users (s : Store) (tid : Nat) (f : FailSpec) :
    (markFailedOr s tid f).1.users = s.users := by
  unfold markFailedOr
  by_cases h : f.markFailedFails <;> simp [h]

theorem markFailedOr_not_success (s : Store) (tid : Nat) (f : FailSpec) :
    (markFailedOr s tid f).2.isSuccess = false := by
  unfold markFailedOr
  by_cases h : f.markFailedFails <;> simp [h, TResult.isSuccess]

/-- On an all-writes-succeed run past validation, `transferMoney` produces
exactly the debited-then-credited balances (the credit computed from the
receiver balance read before any update), the new transaction at the head
with status completed, and a success result. -/
theorem transferMoney_noFail_eq
    (s : Store) (req : TransferOptions) (now : Nat) (a b : Int)
    (hs : lookupBal s.users req.senderId = some a)
    (hr : lookupBal s.users req.receiverId = some b)
    (hnl : ¬ a < req.amount) :
    transferMoney s req now noFail =
      (⟨setBalance (setBalance s.users req.senderId (a - req.amount))
          req.receiverId (b + req.amount),
        ⟨s.nextId, req.senderId, req.receiverId, req.amount, req.description,
         req.transactionType, now, TStatus.completed⟩ :: s.transactions,
        s.nextId + 1⟩,
       .success s.nextId) := by
  simp [transferMoney, hs, hr, hnl, noFail, setTxnStatus]

/-- A successful `transferMoney` run with distinct parties leaves the
system-wide balance sum unchanged. -/
theorem transfer_preserves_sum
    (s : Store) (req : TransferOptions) (now : Nat) (f : FailSpec)
    (hne : req.senderId ≠ req.receiverId)
    (hsucc : (transferMoney s req now f).2.isSuccess = true) :
    sumBal (transferMoney s req now f).1 = sumBal s := by
  unfold transferMoney at *
  cases hA : lookupBal s.users req.senderId with
  | none => simp [hA, TResult.isSuccess] at hsucc
  | some a =>
    simp only [hA] at hsucc ⊢
    by_cases hlt : a < req.amount
    · simp [hlt, TResult.isSuccess] at hsucc
    · simp only [hlt, if_false] at hsucc ⊢
      cases hB : lookupBal s.users req.receiverId with
      | none => simp [hB, hlt, TResult.isSuccess] at hsucc
      | some b =>
        simp only [hB, hlt] at hsucc ⊢
        by_cases hc : f.createFails
        · simp [hc, TResult.isSuccess] at hsucc
        · by_cases hd : f.debitFails
          · simp [hc, hd, markFailedOr_not_success] at hsucc
          · by_cases hcr : f.creditFails
            · simp [hc, hd, hcr, markFailedOr_not_success] at hsucc
            · by_cases hcm : f.completeFails
              · simp [hc, hd, hcr, hcm, markFailedOr_not_success] at hsucc
              · simp only [hc, hd, hcr, hcm, Bool.false_eq_true, if_false, ite_false]
                have hB0 : lookupBal (setBalance s.users req.senderId (a - req.amount)) req.receiverId = some b := by
                  rw [lookupBal_setBalance_ne _ (Ne.symm hne)]; exact hB
                simp only [sumBal]
                rw [sum_setBalance _ hB0, sum_setBalance _ hA]
                ring

/-- With a nonnegative requested amount, `transferMoney` keeps every
balance nonnegative on every run, including every partial-failure run. -/
theorem transfer_preserves_nonneg
    (s : Store) (req : TransferOptions) (now : Nat) (f : FailSpec)
    (hamt : 0 ≤ req.amount) (hall : allNonneg s.users) :
    allNonneg (transferMoney s req now f).1.users := by
  unfold transferMoney
  cases hA : lookupBal s.users req.senderId with
  | none => exact hall
  | some a =>
    by_cases hlt : a < req.amount
    · simp only [hlt, if_true]; exact hall
    · simp only [hlt, if_false]
      cases hB : lookupBal s.users req.receiverId with
      | none => exact hall
      | some b =>
        have hb0 : 0 ≤ b := hall _ (lookupBal_mem hB)
        have ha' : 0 ≤ a - req.amount := by linarith [not_lt.mp hlt]
        have h1 : allNonneg (setBalance s.users req.senderId (a - req.amount)) :=
          allNonneg_setBalance hall ha'
        have h2 : allNonneg (setBalance (setBalance s.users req.senderId (a - req.amount)) req.receiverId (b + req.amount)) :=
          allNonneg_setBalance h1 (by linarith)
        by_cases hc : f.createFails
        · simp only [hc, if_true]; exact hall
        · by_cases hd : f.debitFails
          · simp only [hc, hd, Bool.false_eq_true, if_false, if_true]
            rw [markFailedOr_users]; exact hall
          · by_cases hcr : f.creditFails
            · simp only [hc, hd, hcr, Bool.false_eq_true, if_false, if_true]
              rw [markFailedOr_users]; exact h1
            · by_cases hcm : f.completeFails
              · simp only [hc, hd, hcr, hcm, Bool.false_eq_true, if_false, if_true]
                rw [markFailedOr_users]; exact h2
              · simp only [hc, hd, hcr, hcm, Bool.false_eq_true, if_false, ite_false]
                exact h2

/-- With a nonnegative payload amount, `processNFCPayment` keeps every
balance nonnegative on every run. -/
theorem nfc_preserves_nonneg
    (s : Store) (uid : String) (p : NFCPaymentData) (now : Nat) (f : FailSpec)
    (hamt : 0 ≤ p.amount) (hall : allNonneg s.users) :
    allNonneg (processNFCPayment s uid p now f).1.users := by
  unfold processNFCPayment
  cases hA : lookupBal s.users uid with
  | none => exact hall
  | some a =>
    by_cases hlt : a < p.amount
    · simp only [hlt, if_true]; exact hall
    · simp only [hlt, if_false]
      cases hB : lookupBal s.users p.receiverId with
      | none => exact hall
      | some b =>
        have hb0 : 0 ≤ b := hall _ (lookupBal_mem hB)
        have ha' : 0 ≤ a - p.amount := by linarith [not_lt.mp hlt]
        have h1 : allNonneg (setBalance s.users uid (a - p.amount)) :=
          allNonneg_setBalance hall ha'
        have h2 : allNonneg (setBalance (setBalance s.users uid (a - p.amount)) p.receiverId (b + p.amount)) :=
          allNonneg_setBalance h1 (by linarith)
        by_cases hc : f.createFails
        · simp only [hc, if_true]; exact hall
        · by_cases hd : f.debitFails
          · simp only [hc, hd, Bool.false_eq_true, if_false, if_true]; exact hall
          · by_cases hcr : f.creditFails
            · simp only [hc, hd, hcr, Bool.false_eq_true, if_false, if_true]; exact h1
            · by_cases hcm : f.completeFails
              · simp only [hc, hd, hcr, hcm, Bool.false_eq_true, if_false, if_true]; exact h2
              · simp only [hc, hd, hcr, hcm, Bool.false_eq_true, if_false, ite_false]
                exact h2

theorem sumAmounts_cons (t : Txn) (rest : List Txn) :
    sumAmounts (t :: rest) = t.amount + sumAmounts rest := by
  simp [sumAmounts]

theorem sumOfType_cons (t : Txn) (rest : List Txn) (ty : TxType) :
    sumOfType (t :: rest) ty =
      (if t.transactionType = ty then t.amount else 0) + sumOfType rest ty := by
  by_cases h : t.transactionType = ty <;> simp [sumOfType, List.filter_cons, h]

theorem lookupCat_bumpCategory (cats : List (TxType × Int)) (t ty : TxType) (a : Int) :
    lookupCat (bumpCategory cats t a) ty =
      lookupCat cats ty + (if t = ty then a else 0) := by
  induction cats with
  | nil => by_cases h : t = ty <;> simp [bumpCategory, lookupCat, h]
  | cons p rest ih =>
    obtain ⟨t0, v0⟩ := p
    by_cases h0 : t0 = t
    · subst h0
      by_cases h1 : t0 = ty <;> simp [bumpCategory, lookupCat, h1]
    · by_cases h1 : t0 = ty
      · subst h1
        have ht : ¬ t = t0 := fun hc => h0 (hc ▸ rfl)
        simp [bumpCategory, lookupCat, h0, ht]
      · simp [bumpCategory, lookupCat, h0, h1, ih]

/-- The received-documents loop adds the amount sum to `totalIncome`, the
document count to `totalTransactions`, the per-type amount sums to the
category map, and leaves `totalExpenses` alone. -/
theorem processReceived_spec (docs : List Txn) (acc : TransactionStatistics) :
    (processReceived docs acc).totalIncome = acc.totalIncome + sumAmounts docs ∧
    (processReceived docs acc).totalExpenses = acc.totalExpenses ∧
    (processReceived docs acc).totalTransactions = acc.totalTransactions + docs.length ∧
    ∀ ty, lookupCat (processReceived docs acc).categories ty =
      lookupCat acc.categories ty + sumOfType docs ty := by
  induction docs generalizing acc with
  | nil => simp [processReceived, sumAmounts, sumOfType]
  | cons t rest ih =>
    obtain ⟨h1, h2, h3, h4⟩ := ih
      { acc with
        totalIncome := acc.totalIncome + t.amount,
        totalTransactions := acc.totalTransactions + 1,
        categories := bumpCategory acc.categories t.transactionType t.amount }
    refine ⟨?_, ?_, ?_, ?_⟩
    · rw [processReceived, h1]; simp [sumAmounts_cons]; ring
    · rw [processReceived, h2]
    · rw [processReceived, h3]; simp; ring
    · intro ty
      rw [processReceived, h4 ty]
      simp only [lookupCat_bumpCategory, sumOfType_cons]
      ring

/-- The sent-documents loop adds the amount sum to `totalExpenses`, the
document count to `totalTransactions`, the per-type amount sums to the
category map, and leaves `totalIncome` alone. -/
theorem processSent_spec (docs : List Txn) (acc : TransactionStatistics) :
    (processSent docs acc).totalExpenses = acc.totalExpenses + sumAmounts docs ∧
    (processSent docs acc).totalIncome = acc.totalIncome ∧
    (processSent docs acc).totalTransactions = acc.totalTransactions + docs.length ∧
    ∀ ty, lookupCat (processSent docs acc).categories ty =
      lookupCat acc.categories ty + sumOfType docs ty := by
  induction docs generalizing acc with
  | nil => simp [processSent, sumAmounts, sumOfType]
  | cons t rest ih =>
    obtain ⟨h1, h2, h3, h4⟩ := ih
      { acc with
        totalExpenses := acc.totalExpenses + t.amount,
        totalTransactions := acc.totalTransactions + 1,
        categories := bumpCategory acc.categories t.transactionType t.amount }
    refine ⟨?_, ?_, ?_, ?_⟩
    · rw [processSent, h1]; simp [sumAmounts_cons]; ring
    · rw [processSent, h2]
    · rw [processSent, h3]; simp; ring
    · intro ty
      rw [processSent, h4 ty]
      simp only [lookupCat_bumpCategory, sumOfType_cons]
      ring

/-! Claim theorems. -/

/-- Claim C1, counterexample: a completed self-transfer changes the
system-wide balance sum.  With one account at 100, `transferMoney`
A to A of 50 succeeds, the recorded transaction is completed, and the sum
grows from 100 to 150: the credit is computed from the receiver balance
read before the debit, so the debit is overwritten. -/
theorem conservation_counterexample :
    (transferMoney storeSelf ⟨"A", "A", 50, "gift", .transfer⟩ 0 noFail).2 = TResult.success 0 ∧
    (transferMoney storeSelf ⟨"A", "A", 50, "gift", .transfer⟩ 0 noFail).1.transactions.map Txn.status = [TStatus.completed] ∧
    sumBal storeSelf = 100 ∧
    sumBal (transferMoney storeSelf ⟨"A", "A", 50, "gift", .transfer⟩ 0 noFail).1 = 150 := by
  decide

/-- Claim C1 (amended): for every sequence of transfer attempts in which
each request names distinct sender and receiver and every attempt
succeeds (hence every recorded transaction is completed), the system-wide
sum of account balances is unchanged. -/
theorem conservation_distinct_transfers
    (steps : List (TransferOptions × Nat × FailSpec)) (s : Store)
    (hne : ∀ st ∈ steps, st.1.senderId ≠ st.1.receiverId)
    (hsucc : ∀ r ∈ (runTransfers s steps).2, r.isSuccess = true) :
    sumBal (runTransfers s steps).1 = sumBal s := by
  induction steps generalizing s with
  | nil => rfl
  | cons st rest ih =>
    obtain ⟨req, now, f⟩ := st
    have hstep : (transferMoney s req now f).2.isSuccess = true := by
      apply hsucc (transferMoney s req now f).2
      simp [runTransfers]
    have h1 : sumBal (transferMoney s req now f).1 = sumBal s :=
      transfer_preserves_sum s req now f (hne (req, now, f) (List.mem_cons_self _ _)) hstep
    have h2 := ih (transferMoney s req now f).1
      (fun st hst => hne st (List.mem_cons_of_mem _ hst))
      (fun r hr => by
        apply hsucc
        simp only [runTransfers]
        exact List.mem_cons_of_mem _ hr)
    simp only [runTransfers]
    rw [h2, h1]

/-- Claim C1, witness: two successful transfers between distinct accounts
leave the balance sum of `storeAB` unchanged. -/
theorem conservation_distinct_transfers_witness :
    sumBal (runTransfers storeAB stepsW).1 = sumBal storeAB :=
  conservation_distinct_transfers stepsW storeAB (by decide) (by decide)

/-- Claim C2, counterexample: nothing rejects a negative amount, so a
transfer of -100 from an account holding 50 passes the funds check
(50 is not below -100), completes, and drives the receiver balance of 30
down to -70, below zero. -/
theorem no_overdraft_counterexample :
    (transferMoney storeSmall ⟨"A", "B", -100, "drain", .transfer⟩ 0 noFail).2 = TResult.success 0 ∧
    lookupBal (transferMoney storeSmall ⟨"A", "B", -100, "drain", .transfer⟩ 0 noFail).1.users "B" = some (-70) ∧
    (-70 : Int) < 0 := by
  decide

/-- Claim C2 (amended): a request whose amount exceeds the sender balance
fails with the error "Insufficient funds" on both the direct path (used
by the form and QR) and the NFC path, leaving the store untouched, on
every run; and provided the requested amount is nonnegative (the code
never checks this), both paths keep all balances nonnegative on every
run, including every partial-failure run. -/
theorem no_overdraft_amended
    (s : Store) (req : TransferOptions) (uid : String) (p : NFCPaymentData)
    (now : Nat) (f : FailSpec) :
    (∀ a, lookupBal s.users req.senderId = some a → a < req.amount →
      transferMoney s req now f = (s, .failure "Insufficient funds")) ∧
    (∀ a, lookupBal s.users uid = some a → a < p.amount →
      processNFCPayment s uid p now f = (s, .failure "Insufficient funds")) ∧
    (0 ≤ req.amount → allNonneg s.users →
      allNonneg (transferMoney s req now f).1.users) ∧
    (0 ≤ p.amount → allNonneg s.users →
      allNonneg (processNFCPayment s uid p now f).1.users) := by
  refine ⟨?_, ?_, fun h1 h2 => transfer_preserves_nonneg s req now f h1 h2,
    fun h1 h2 => nfc_preserves_nonneg s uid p now f h1 h2⟩
  · intro a ha hlt
    unfold transferMoney
    simp [ha, hlt]
  · intro a ha hlt
    unfold processNFCPayment
    simp [ha, hlt]

/-- Claim C2, witness: a request of 300 against a balance of 50 fails with
"Insufficient funds" on both paths without touching the store, and a
successful nonnegative transfer keeps all balances nonnegative. -/
theorem no_overdraft_amended_witness :
    transferMoney storeSmall ⟨"A", "B", 300, "big", .transfer⟩ 0 noFail =
      (storeSmall, .failure "Insufficient funds") ∧
    processNFCPayment storeSmall "A" ⟨"B", 300, "tap"⟩ 0 noFail =
      (storeSmall, .failure "Insufficient funds") ∧
    allNonneg (transferMoney storeSmall ⟨"A", "B", 20, "ok", .transfer⟩ 0 noFail).1.users :=
  ⟨(no_overdraft_amended storeSmall ⟨"A", "B", 300, "big", .transfer⟩ "A" ⟨"B", 300, "tap"⟩ 0 noFail).1 50 (by decide) (by decide),
   (no_overdraft_amended storeSmall ⟨"A", "B", 300, "big", .transfer⟩ "A" ⟨"B", 300, "tap"⟩ 0 noFail).2.1 50 (by decide) (by decide),
   (no_overdraft_amended storeSmall ⟨"A", "B", 20, "ok", .transfer⟩ "A" ⟨"B", 300, "tap"⟩ 0 noFail).2.2.1 (by decide) (by decide)⟩

/-- Claim C3, counterexample: no code path compares sender and receiver,
so a self-transfer of 25 from an account holding 100 succeeds, creates a
completed transaction, and raises the balance to 125. -/
theorem self_transfer_counterexample :
    (transferMoney storeSelf ⟨"A", "A", 25, "loop", .transfer⟩ 0 noFail).2 = TResult.success 0 ∧
    (transferMoney storeSelf ⟨"A", "A", 25, "loop", .transfer⟩ 0 noFail).1.transactions.length = 1 ∧
    lookupBal (transferMoney storeSelf ⟨"A", "A", 25, "loop", .transfer⟩ 0 noFail).1.users "A" = some 125 := by
  decide

/-- Claim C3 (amended): `transferMoney` performs no self-transfer check.
A request with equal sender and receiver whose amount does not exceed the
balance succeeds on an all-writes-succeed run, records a completed
transaction, and leaves the account balance increased by the amount: the
credit, computed from the pre-debit read, overwrites the debit. -/
theorem self_transfer_succeeds
    (s : Store) (req : TransferOptions) (now : Nat) (b : Int)
    (hself : req.senderId = req.receiverId)
    (hs : lookupBal s.users req.senderId = some b)
    (hle : req.amount ≤ b) :
    (transferMoney s req now noFail).2 = .success s.nextId ∧
    lookupBal (transferMoney s req now noFail).1.users req.senderId = some (b + req.amount) ∧
    (findTxn (transferMoney s req now noFail).1.transactions s.nextId).map Txn.status = some TStatus.completed := by
  have hr : lookupBal s.users req.receiverId = some b := hself ▸ hs
  have hnl : ¬ b < req.amount := not_lt.mpr hle
  rw [transferMoney_noFail_eq s req now b b hs hr hnl]
  refine ⟨rfl, ?_, ?_⟩
  · rw [hself]
    apply lookupBal_setBalance_eq
    exact lookupBal_setBalance_eq _ (hself ▸ hs)
  · simp [findTxn]

/-- Claim C3, witness: the self-transfer theorem evaluated on one account
holding 100 and a request of 30. -/
theorem self_transfer_succeeds_witness :
    (transferMoney storeSelf ⟨"A", "A", 30, "self", .transfer⟩ 2 noFail).2 = .success storeSelf.nextId ∧
    lookupBal (transferMoney storeSelf ⟨"A", "A", 30, "self", .transfer⟩ 2 noFail).1.users "A" = some (100 + 30) ∧
    (findTxn (transferMoney storeSelf ⟨"A", "A", 30, "self", .transfer⟩ 2 noFail).1.transactions storeSelf.nextId).map Txn.status = some TStatus.completed :=
  self_transfer_succeeds storeSelf ⟨"A", "A", 30, "self", .transfer⟩ 2 100 rfl (by decide) (by decide)

/-- Claim C4: with distinct existing sender and receiver, a positive
amount not exceeding the sender balance, and every store write
succeeding, `transferMoney` returns success with the id of the created
transaction, debits the sender by exactly the amount, credits the
receiver by exactly the amount, and the created transaction ends with
status completed. -/
theorem transfer_success_post
    (s : Store) (req : TransferOptions) (now : Nat) (a b : Int)
    (hne : req.senderId ≠ req.receiverId)
    (hs : lookupBal s.users req.senderId = some a)
    (hr : lookupBal s.users req.receiverId = some b)
    (hpos : 0 < req.amount)
    (hle : req.amount ≤ a) :
    (transferMoney s req now noFail).2 = .success s.nextId ∧
    lookupBal (transferMoney s req now noFail).1.users req.senderId = some (a - req.amount) ∧
    lookupBal (transferMoney s req now noFail).1.users req.receiverId = some (b + req.amount) ∧
    (findTxn (transferMoney s req now noFail).1.transactions s.nextId).map Txn.status = some TStatus.completed := by
  have hnl : ¬ a < req.amount := not_lt.mpr hle
  rw [transferMoney_noFail_eq s req now a b hs hr hnl]
  refine ⟨rfl, ?_, ?_, ?_⟩
  · rw [lookupBal_setBalance_ne _ hne]
    exact lookupBal_setBalance_eq _ hs
  · exact lookupBal_setBalance_eq _ (by rw [lookupBal_setBalance_ne _ (Ne.symm hne)]; exact hr)
  · simp [findTxn]

/-- Claim C4, witness: the scenario of the source spec, balances 1000 and
500 with a transfer of 300, ending at 700 and 800 with a completed
transaction. -/
theorem transfer_success_post_witness :
    (transferMoney storeAB ⟨"A", "B", 300, "rent", .transfer⟩ 5 noFail).2 = .success storeAB.nextId ∧
    lookupBal (transferMoney storeAB ⟨"A", "B", 300, "rent", .transfer⟩ 5 noFail).1.users "A" = some (1000 - 300) ∧
    lookupBal (transferMoney storeAB ⟨"A", "B", 300, "rent", .transfer⟩ 5 noFail).1.users "B" = some (500 + 300) ∧
    (findTxn (transferMoney storeAB ⟨"A", "B", 300, "rent", .transfer⟩ 5 noFail).1.transactions storeAB.nextId).map Txn.status = some TStatus.completed :=
  transfer_success_post storeAB ⟨"A", "B", 300, "rent", .transfer⟩ 5 1000 500
    (by decide) (by decide) (by decide) (by decide) (by decide)

/-- Claim C5, counterexample: on the NFC path a failing debit write leaves
the created transaction permanently pending: `processNFCPayment` has no
inner catch that would mark it failed, and the reported error is the
thrown store error, not a ProcessingFailed result. -/
theorem terminal_settlement_counterexample :
    (processNFCPayment storeSmall "A" ⟨"B", 30, "tap"⟩ 0 failDebit).2.isSuccess = false ∧
    (processNFCPayment storeSmall "A" ⟨"B", 30, "tap"⟩ 0 failDebit).2 ≠
      TResult.failure "Transaction processing failed" ∧
    (processNFCPayment storeSmall "A" ⟨"B", 30, "tap"⟩ 0 failDebit).1.transactions.map Txn.status = [TStatus.pending] := by
  decide

/-- Claim C5 (amended): on the direct path (form and QR), once the pending
transaction is created, a failure of the debit, credit, or
completed-status write drives the transaction to status failed and
returns the "Transaction processing failed" result, provided the
failed-status write itself succeeds (if it also throws, the transaction
stays pending); an already-applied debit is not reversed.  The NFC path
attempts no failed marking at all. -/
theorem terminal_direct
    (s : Store) (req : TransferOptions) (now : Nat) (f : FailSpec) (a b : Int)
    (hs : lookupBal s.users req.senderId = some a)
    (hnl : ¬ a < req.amount)
    (hr : lookupBal s.users req.receiverId = some b)
    (hc : f.createFails = false)
    (hmf : f.markFailedFails = false)
    (hfail : f.debitFails = true ∨ f.creditFails = true ∨ f.completeFails = true) :
    (transferMoney s req now f).2 = TResult.failure "Transaction processing failed" ∧
    (findTxn (transferMoney s req now f).1.transactions s.nextId).map Txn.status = some TStatus.failed ∧
    (f.debitFails = false → f.creditFails = true →
      lookupBal (transferMoney s req now f).1.users req.senderId = some (a - req.amount)) := by
  refine ⟨?_, ?_, ?_⟩
  · unfold transferMoney
    simp only [hs, hr, hnl, hc, Bool.false_eq_true, if_false, ite_false]
    by_cases hd : f.debitFails
    · simp [hd, markFailedOr, hmf]
    · by_cases hcr : f.creditFails
      · simp [hd, hcr, markFailedOr, hmf]
      · by_cases hcm : f.completeFails
        · simp [hd, hcr, hcm, markFailedOr, hmf]
        · rcases hfail with h | h | h <;> simp_all
  · unfold transferMoney
    simp only [hs, hr, hnl, hc, Bool.false_eq_true, if_false, ite_false]
    by_cases hd : f.debitFails
    · simp [hd, markFailedOr, hmf, setTxnStatus, findTxn]
    · by_cases hcr : f.creditFails
      · simp [hd, hcr, markFailedOr, hmf, setTxnStatus, findTxn]
      · by_cases hcm : f.completeFails
        · simp [hd, hcr, hcm, markFailedOr, hmf, setTxnStatus, findTxn]
        · rcases hfail with h | h | h <;> simp_all
  · intro hd hcr
    unfold transferMoney
    simp only [hs, hr, hnl, hc, hd, hcr, Bool.false_eq_true, if_false, if_true, ite_false]
    simp only [markFailedOr, hmf, Bool.false_eq_true, if_false, ite_false]
    exact lookupBal_setBalance_eq _ hs

/-- Claim C5, witness: a failing credit write on the direct path marks the
transaction failed, reports the processing failure, and leaves the debit
applied. -/
theorem terminal_direct_witness :
    (transferMoney storeSmall ⟨"A", "B", 20, "pay", .transfer⟩ 0 failCredit).2 =
      TResult.failure "Transaction processing failed" ∧
    (findTxn (transferMoney storeSmall ⟨"A", "B", 20, "pay", .transfer⟩ 0 failCredit).1.transactions storeSmall.nextId).map Txn.status = some TStatus.failed ∧
    (failCredit.debitFails = false → failCredit.creditFails = true →
      lookupBal (transferMoney storeSmall ⟨"A", "B", 20, "pay", .transfer⟩ 0 failCredit).1.users "A" = some (50 - 20)) :=
  terminal_direct storeSmall ⟨"A", "B", 20, "pay", .transfer⟩ 0 failCredit 50 30
    (by decide) (by decide) (by decide) rfl rfl (Or.inr (Or.inl rfl))

/-- Claim C6, counterexample: on the same decoded intent with an empty
description, the NFC path and the direct path produce different stores:
the NFC path records the description "NFC Payment" where the direct path
records the empty description. -/
theorem nfc_equivalence_counterexample :
    processNFCPayment storeSmall "A" ⟨"B", 10, ""⟩ 0 noFail ≠
      transferMoney storeSmall ⟨"A", "B", 10, "", .nfc⟩ 0 noFail ∧
    (processNFCPayment storeSmall "A" ⟨"B", 10, ""⟩ 0 noFail).1.transactions.map Txn.description = ["NFC Payment"] ∧
    (transferMoney storeSmall ⟨"A", "B", 10, "", .nfc⟩ 0 noFail).1.transactions.map Txn.description = [""] := by
  decide

/-- Claim C6 (amended): on all-writes-succeed runs with a non-empty
description, the NFC path is extensionally the direct `transferMoney`
with `transactionType = nfc`: same validation outcomes, same created
record, same balance updates, same result.  The paths diverge on empty
descriptions and on mid-flight write failures. -/
theorem nfc_direct_equivalence
    (s : Store) (uid : String) (p : NFCPaymentData) (now : Nat)
    (hdesc : p.description ≠ "") :
    processNFCPayment s uid p now noFail =
      transferMoney s ⟨uid, p.receiverId, p.amount, p.description, .nfc⟩ now noFail := by
  unfold processNFCPayment transferMoney
  cases hA : lookupBal s.users uid with
  | none => simp
  | some a =>
    by_cases hlt : a < p.amount
    · simp [hlt]
    · simp only [hlt, if_false]
      cases hB : lookupBal s.users p.receiverId with
      | none => simp
      | some b => simp [noFail, hdesc]

/-- Claim C6, witness: the NFC equivalence evaluated on a concrete intent
with a non-empty description. -/
theorem nfc_direct_equivalence_witness :
    processNFCPayment storeSmall "A" ⟨"B", 10, "coffee"⟩ 3 noFail =
      transferMoney storeSmall ⟨"A", "B", 10, "coffee", .nfc⟩ 3 noFail :=
  nfc_direct_equivalence storeSmall "A" ⟨"B", 10, "coffee"⟩ 3 (by decide)

/-- Claim C7, counterexample: a request with amount 0 and empty
description is not rejected: it succeeds and creates a transaction
record, because `transferMoney` validates neither field. -/
theorem engine_validation_counterexample :
    (transferMoney storeSmall ⟨"A", "B", 0, "", .transfer⟩ 0 noFail).2 = TResult.success 0 ∧
    (transferMoney storeSmall ⟨"A", "B", 0, "", .transfer⟩ 0 noFail).1.transactions.length = 1 := by
  decide

/-- Claim C7 (amended): `transferMoney` applies no amount-positivity and
no description check: a request with amount at most 0 or an empty
description is processed like any other, and succeeds on an
all-writes-succeed run whenever sender and receiver exist and the sender
balance covers the amount, creating a completed transaction carrying
exactly that amount and description.  (Amount and description validation
exists only in the UI forms, not in the engine.) -/
theorem no_engine_validation
    (s : Store) (req : TransferOptions) (now : Nat) (a b : Int)
    (hbad : req.amount ≤ 0 ∨ req.description = "")
    (hs : lookupBal s.users req.senderId = some a)
    (hr : lookupBal s.users req.receiverId = some b)
    (hle : req.amount ≤ a) :
    (transferMoney s req now noFail).2 = .success s.nextId ∧
    findTxn (transferMoney s req now noFail).1.transactions s.nextId =
      some ⟨s.nextId, req.senderId, req.receiverId, req.amount,
        req.description, req.transactionType, now, TStatus.completed⟩ := by
  have hnl : ¬ a < req.amount := not_lt.mpr hle
  rw [transferMoney_noFail_eq s req now a b hs hr hnl]
  exact ⟨rfl, by simp [findTxn]⟩

/-- Claim C7, witness: a request with amount -5 and empty description
succeeds and is recorded as completed. -/
theorem no_engine_validation_witness :
    (transferMoney storeSmall ⟨"A", "B", -5, "", .transfer⟩ 4 noFail).2 = .success storeSmall.nextId ∧
    findTxn (transferMoney storeSmall ⟨"A", "B", -5, "", .transfer⟩ 4 noFail).1.transactions storeSmall.nextId =
      some ⟨storeSmall.nextId, "A", "B", -5, "", .transfer, 4, TStatus.completed⟩ :=
  no_engine_validation storeSmall ⟨"A", "B", -5, "", .transfer⟩ 4 50 30
    (Or.inl (by decide)) (by decide) (by decide) (by decide)

/-- Claim C8, counterexample: a parsed payload whose type field is
"payment" but whose receiverId, amount, and description are all missing
still reaches the engine: `processScannedQR` checks only the type field
and passes the remaining fields through as they are. -/
theorem qr_missing_fields_counterexample :
    processScannedQR (some "A")
        (some ⟨some (JPrim.str "payment"), none, none, none, []⟩) =
      some ⟨"A", none, none, none, TxType.transfer⟩ := by
  decide

/-- Claim C8 (amended): the QR handler makes no engine call when the
payload fails to parse, and otherwise calls the engine exactly when the
type field holds the string "payment" and a user is logged in; required
payload fields are not checked and are passed through unvalidated, and
unknown extra fields never affect the outcome. -/
theorem qr_decode_behavior (currentUser : Option String) (pd : ParsedQR)
    (extras1 extras2 : List (String × JPrim)) :
    processScannedQR currentUser none = none ∧
    ((processScannedQR currentUser (some pd)).isSome ↔
      pd.type = some (JPrim.str "payment") ∧ currentUser.isSome) ∧
    processScannedQR currentUser (some { pd with extra := extras1 }) =
      processScannedQR currentUser (some { pd with extra := extras2 }) := by
  refine ⟨rfl, ?_, ?_⟩
  · by_cases ht : pd.type = some (JPrim.str "payment")
    · cases currentUser <;> simp [processScannedQR, ht]
    · simp [processScannedQR, ht]
  · by_cases ht : pd.type = some (JPrim.str "payment")
    · cases currentUser <;> simp [processScannedQR, ht]
    · simp [processScannedQR, ht]

/-- Claim C9: for every account and inclusive date range,
`getTransactionStatistics` sums exactly the completed transactions in
range: `totalIncome` is the amount sum of the receiver-side set,
`totalExpenses` the amount sum of the sender-side set,
`totalTransactions` counts both sets, and each category bucket holds the
merged (no netting) amount sum of both sets for its transaction type. -/
theorem statistics_aggregation (txns : List Txn) (userId : String)
    (startD endD : Nat) :
    (getTransactionStatistics txns userId startD endD false).totalIncome =
      sumAmounts (receivedIn txns userId startD endD) ∧
    (getTransactionStatistics txns userId startD endD false).totalExpenses =
      sumAmounts (sentIn txns userId startD endD) ∧
    (getTransactionStatistics txns userId startD endD false).totalTransactions =
      (receivedIn txns userId startD endD).length + (sentIn txns userId startD endD).length ∧
    ∀ ty, lookupCat (getTransactionStatistics txns userId startD endD false).categories ty =
      sumOfType (receivedIn txns userId startD endD) ty +
        sumOfType (sentIn txns userId startD endD) ty := by
  obtain ⟨r1, r2, r3, r4⟩ :=
    processReceived_spec (receivedIn txns userId startD endD) zeroStats
  obtain ⟨s1, s2, s3, s4⟩ :=
    processSent_spec (sentIn txns userId startD endD)
      (processReceived (receivedIn txns userId startD endD) zeroStats)
  simp only [getTransactionStatistics, Bool.false_eq_true, if_false, ite_false]
  refine ⟨?_, ?_, ?_, ?_⟩
  · rw [s2, r1]; simp [zeroStats]
  · rw [s1, r2]; simp [zeroStats]
  · rw [s3, r3]; simp [zeroStats]
  · intro ty
    rw [s4 ty, r4 ty]; simp [zeroStats, lookupCat]

/-- Claim C10: when the transaction query throws,
`getTransactionStatistics` returns the zero-initialised record — no error
is signalled — which is exactly what it returns for an account with no
completed transactions in range. -/
theorem statistics_store_failure (txns : List Txn) (userId : String)
    (startD endD : Nat) :
    getTransactionStatistics txns userId startD endD true = zeroStats ∧
    getTransactionStatistics txns userId startD endD true =
      getTransactionStatistics [] userId startD endD false := by
  constructor
  · rfl
  · simp [getTransactionStatistics, receivedIn, sentIn, processReceived, processSent]
